import Mathlib

/-!
Verification of the cli_2048 grid engine (src/lib.rs) against its
natural-language specification.  The Rust code is shallowly embedded:
cell exponents are `Nat`, with the one arithmetic operation the source
performs on a `u8` cell — the merge increment `row[i] += 1` — taken
modulo `2 ^ 8`, the wrapping behaviour of an overflow-unchecked build
(a checked build panics there instead; either way the source does not
return the incremented value once the cell holds 255).
`Vec<Vec<u8>>` becomes `List (List Nat)`, `Result<Grid, &'static str>` becomes
`Except String Grid`, and the thread-local random generator is modelled
as a stream of naturals (`List Nat`), each `gen_range(lo..hi)` call
consuming one element `v` and yielding `lo + v % (hi - lo)`, so every
value of the real generator's range is reachable by some stream.
Rust panics on indexing/underflow are, where a claim is about them,
modelled by `Option`-valued "checked" variants of the operations.
-/

/-- One line-style preset: the eleven border glyph roles of the source's
`PipeMap` (a `phf` map with exactly these eleven keys), each one display
character. -/
structure PipeMap where
  horizontal : Char
  vertical : Char
  top_left : Char
  top_right : Char
  bottom_left : Char
  bottom_right : Char
  top_horizontal : Char
  bottom_horizontal : Char
  left_vertical : Char
  right_vertical : Char
  cross : Char
deriving DecidableEq

/-- The `PIPEMAP_THIN` preset of the source. -/
def PIPEMAP_THIN : PipeMap :=
  { horizontal := '─', vertical := '│', top_left := '┌', top_right := '┐',
    bottom_left := '└', bottom_right := '┘', top_horizontal := '┬',
    bottom_horizontal := '┴', left_vertical := '├', right_vertical := '┤',
    cross := '┼' }

/-- The `PIPEMAP_MEDIUM` preset of the source. -/
def PIPEMAP_MEDIUM : PipeMap :=
  { horizontal := '━', vertical := '┃', top_left := '┏', top_right := '┓',
    bottom_left := '┗', bottom_right := '┛', top_horizontal := '┳',
    bottom_horizontal := '┻', left_vertical := '┣', right_vertical := '┫',
    cross := '╋' }

/-- The `PIPEMAP_THICK` preset of the source (the default). -/
def PIPEMAP_THICK : PipeMap :=
  { horizontal := '═', vertical := '║', top_left := '╔', top_right := '╗',
    bottom_left := '╚', bottom_right := '╝', top_horizontal := '╦',
    bottom_horizontal := '╩', left_vertical := '╠', right_vertical := '╣',
    cross := '╬' }

/-- The four slide directions (`enum Direction` of the source). -/
inductive Direction where
  | LEFT
  | RIGHT
  | UP
  | DOWN
deriving DecidableEq

/-- Game state: `struct Grid { rows: Vec<Vec<u8>>, pipes: &PipeMap }`. -/
structure Grid where
  rows : List (List Nat)
  pipes : PipeMap
deriving DecidableEq

/-- `impl Default for Grid`: a 4 by 4 grid of zeros with the Thick preset. -/
def defaultGrid : Grid :=
  { rows := List.replicate 4 (List.replicate 4 0), pipes := PIPEMAP_THICK }

/-- `Grid::from_rows`: wrap a caller-supplied cell array, taking the other
field (`pipes`) from `Default::default()`. -/
def Grid.from_rows (rows : List (List Nat)) : Grid :=
  { rows := rows, pipes := defaultGrid.pipes }

/-- `Grid::with_pipes`: same cells, caller-chosen preset. -/
def Grid.with_pipes (g : Grid) (pipes : PipeMap) : Grid :=
  { rows := g.rows, pipes := pipes }

/-- `Grid::compress_row`: keep the non-zero cells in order and pad with
zeros back to the original length. -/
def compress_row (row : List Nat) : List Nat :=
  let new_row := row.filter (fun x => x != 0)
  new_row ++ List.replicate (row.length - new_row.length) 0

/-- One iteration of the merge loop in `Grid::combine_row`: if the cells at
`i` and `i+1` are equal and non-zero, increment the one at `i` and zero
the one at `i+1`.  The cells are `u8`, so the increment is taken modulo
`2 ^ 8`: at exponent 255 the source wraps to 0 (overflow checks off) or
panics (checks on) rather than producing 256.  In the source both cells
are read by direct indexing inside `for i in 0..(row.len() - 1)`, so both
indices are in bounds there; the `getD` reads used here agree with the
source on that range. -/
def mergeAt (row : List Nat) (i : Nat) : List Nat :=
  if row.getD i 0 = row.getD (i + 1) 0 ∧ row.getD i 0 ≠ 0 then
    (row.set i ((row.getD i 0 + 1) % 256)).set (i + 1) 0
  else
    row

/-- `Grid::combine_row`: compress, run the merge loop left to right, and
compress again.  The source's loop bound `row.len() - 1` is `usize`
subtraction, which underflows (panics) on an empty row; here the `Nat`
subtraction truncates to `0`, see `combine_rowChecked` for the partiality. -/
def combine_row (row : List Nat) : List Nat :=
  let row' := compress_row row
  compress_row ((List.range (row'.length - 1)).foldl mergeAt row')

/-- The `usize` underflow guard for `combine_row`: the source computes
`row.len() - 1` on an unsigned size, which panics for a zero-length row
(and its `row[i]` reads would be out of bounds in wrapping mode), so the
operation is partial there. -/
def combine_rowChecked (row : List Nat) : Option (List Nat) :=
  if row.length = 0 then none else some (combine_row row)

/-- The column-gather loop the source uses as its transpose, in `slide`'s
UP and DOWN arms: `(0..rows[0].len()).map(|col| rows.iter().map(|row|
row[col]).collect()).collect()`.  `rows[0]` is modelled by `headD` and the
in-bounds `row[col]` by `getD`; on the rectangular non-empty grids of the
data model both agree with the source. -/
def transposeG (rows : List (List Nat)) : List (List Nat) :=
  (List.range (rows.headD []).length).map (fun col => rows.map (fun row => row.getD col 0))

/-- Per-row reversal, `rows.iter().map(|row| row.iter().rev().cloned().collect())`. -/
def reverseRows (rows : List (List Nat)) : List (List Nat) :=
  rows.map List.reverse

/-- The pre-spawn cell array computed by `Grid::slide`: the four match arms
of the source, each a rotate / per-row `combine_row` / rotate-back pipeline. -/
def slidePre (dir : Direction) (rows : List (List Nat)) : List (List Nat) :=
  match dir with
  | .LEFT => rows.map combine_row
  | .RIGHT => reverseRows ((reverseRows rows).map combine_row)
  | .UP => transposeG ((transposeG rows).map combine_row)
  | .DOWN => transposeG (reverseRows ((reverseRows (transposeG rows)).map combine_row))

/-- One `rng.gen_range(lo..hi)` draw from the modelled random stream. -/
def genRange (lo hi : Nat) (s : List Nat) : Nat :=
  lo + s.headD 0 % (hi - lo)

/-- The exponent chosen for a spawned tile: `1`, bumped to `2` when the
source's `rng.gen_range(1..10) == 10` test passes. -/
def spawnPower (s : List Nat) : Nat :=
  if genRange 1 10 s = 10 then 2 else 1

/-- The list of coordinates of all zero cells, exactly as enumerated by
`Grid::add_random_number`: rows outermost, `(row index, column index)`. -/
def zerosList (rows : List (List Nat)) : List (Nat × Nat) :=
  rows.enum.flatMap (fun p =>
    (p.2.enum.filter (fun q => q.2 = 0)).map (fun q => (p.1, q.1)))

/-- `new_rows[i][j] = v` on the cloned cell array. -/
def updateCell (rows : List (List Nat)) (i j v : Nat) : List (List Nat) :=
  rows.set i ((rows.getD i []).set j v)

/-- `Grid::add_random_number`: enumerate the zero cells, fail with
"no more options" when there are none, otherwise set a randomly chosen
zero cell to the spawned exponent.  The returned grid takes its `pipes`
from `..Default::default()`.  The stream's first element drives the cell
choice, the second the exponent choice. -/
def Grid.add_random_number (g : Grid) (s : List Nat) : Except String Grid :=
  let options := zerosList g.rows
  if options.isEmpty then
    .error "no more options"
  else
    let option := options.getD (genRange 0 options.length s) (0, 0)
    let power := spawnPower (s.drop 1)
    .ok { rows := updateCell g.rows option.1 option.2 power, pipes := defaultGrid.pipes }

/-- `Grid::slide`: collapse in the requested direction, unconditionally
attempt to spawn (propagating its "no more options" failure), and return
the spawned grid when the collapse changed the cells, the unspawned one
otherwise.  Both candidate results take `pipes` from `..Default::default()`. -/
def Grid.slide (g : Grid) (dir : Direction) (s : List Nat) : Except String Grid :=
  let rows := slidePre dir g.rows
  let new_grid : Grid := { rows := rows, pipes := defaultGrid.pipes }
  match new_grid.add_random_number s with
  | .error e => .error e
  | .ok new_grid_with_new_number =>
    if new_grid.rows ≠ g.rows then .ok new_grid_with_new_number else .ok new_grid

/-- `Grid::new`: reject invalid dimensions (the source panics), build the
all-zero `y_size` by `x_size` grid and spawn twice, `unwrap`ing each spawn
(a spawn failure would also panic, hence `none`).  The second spawn uses
the next two elements of the random stream. -/
def Grid.new (x_size y_size : Nat) (s : List Nat) : Option Grid :=
  if x_size < 1 ∨ y_size < 1 ∨ (x_size < 2 ∧ y_size < 2) then
    none
  else
    let grid : Grid := { rows := List.replicate y_size (List.replicate x_size 0),
                         pipes := defaultGrid.pipes }
    match grid.add_random_number s with
    | .error _ => none
    | .ok g1 =>
      match g1.add_random_number (s.drop 2) with
      | .error _ => none
      | .ok g2 => some g2

/-- The inner `format_digits` of `Grid::formatted_numbers`: blank for an
empty cell, otherwise the decimal rendering of `2^exponent`. -/
def format_digits (number : Nat) : String :=
  if number = 0 then " " else toString (2 ^ number)

/-- The inner `format_number` of `Grid::formatted_numbers`: the digits,
left-padded with spaces to `len` unless `len` is zero. -/
def format_number (number : Nat) (len : Nat) : String :=
  let digits := format_digits number
  if len = 0 then digits
  else String.join (List.replicate (len - digits.length) " ") ++ digits

/-- `Grid::formatted_numbers`: the display string of every cell, all padded
to the longest unpadded rendering, with a minimum field width of 2. -/
def formatted_numbers (g : Grid) : List (List String) :=
  let longest := g.rows.flatten.foldl
    (fun acc number =>
      if (format_number number 0).length > acc then (format_number number 0).length else acc) 2
  g.rows.map (fun row => row.map (fun number => format_number number longest))

/-- `Grid::get_size`: the pair the source computes, first component
`rows.len() * field_width + rows.len() + 1`, second `rows[0].len() * 2 + 1`.
The out-of-bounds `[0][0]` and `[0]` reads are modelled by `headD`; see
`get_sizeChecked`. -/
def get_size (g : Grid) : Nat × Nat :=
  (g.rows.length * ((formatted_numbers g).headD [] |>.headD "").length + g.rows.length + 1,
   (g.rows.headD []).length * 2 + 1)

/-- `Grid::get_size` with the source's `formatted_numbers()[0][0]` and
`rows[0]` indexing made explicit: both panic on a grid with no rows, the
first also on a grid whose first row has no cells. -/
def get_sizeChecked (g : Grid) : Option (Nat × Nat) := do
  let firstRow ← (formatted_numbers g).head?
  let firstCell ← firstRow.head?
  let row0 ← g.rows.head?
  some (g.rows.length * firstCell.length + g.rows.length + 1, row0.length * 2 + 1)

/-- One horizontal border segment sequence of `impl Display for Grid`:
for each column, `field_width` copies of the `horizontal` glyph, followed
by the junction glyph except after the last column. -/
def borderRun (horizontal : Char) (junction : Char) (cols fieldWidth : Nat) : String :=
  String.join ((List.range cols).map (fun i =>
    String.mk (List.replicate fieldWidth horizontal) ++
      (if i ≠ cols - 1 then junction.toString else "")))

/-- `impl Display for Grid`, one output line per `\n` the source writes:
the top border, then for each row its data line followed by either the
cross line or, after the last row, the bottom border. -/
def renderLines (g : Grid) : List String :=
  let pipes := g.pipes
  let grid_str := formatted_numbers g
  let cols := (grid_str.headD []).length
  let fieldWidth := ((grid_str.headD []).headD "").length
  let top := pipes.top_left.toString ++ borderRun pipes.horizontal pipes.top_horizontal cols fieldWidth ++
    pipes.top_right.toString
  let bottom := pipes.bottom_left.toString ++ borderRun pipes.horizontal pipes.bottom_horizontal cols fieldWidth ++
    pipes.bottom_right.toString
  let crossLine := pipes.left_vertical.toString ++ borderRun pipes.horizontal pipes.cross cols fieldWidth ++
    pipes.right_vertical.toString
  let dataLine := fun (row : List String) =>
    String.join (row.map (fun col => pipes.vertical.toString ++ col)) ++ pipes.vertical.toString
  [top] ++ (List.range grid_str.length).flatMap (fun i =>
    [dataLine (grid_str.getD i []),
     if i = grid_str.length - 1 then bottom else crossLine])

/-- `impl Display for Grid` with the source's `grid_str[0]` indexing made
explicit: the top border's loop bound reads `grid_str[0].len()`, which
panics on a grid with no rows. -/
def renderLinesChecked (g : Grid) : Option (List String) :=
  match (formatted_numbers g).head? with
  | none => none
  | some _ => some (renderLines g)

/- Spec-side measures used to state the claims. -/

/-- All rows have length `w` (the rectangularity invariant of the data model). -/
def IsRect (rows : List (List Nat)) (w : Nat) : Prop :=
  ∀ r ∈ rows, r.length = w

instance (rows : List (List Nat)) (w : Nat) : Decidable (IsRect rows w) :=
  inferInstanceAs (Decidable (∀ r ∈ rows, r.length = w))

/-- The grid has zero empty cells. -/
def gridFull (rows : List (List Nat)) : Prop :=
  0 ∉ rows.flatten

instance (rows : List (List Nat)) : Decidable (gridFull rows) :=
  inferInstanceAs (Decidable (0 ∉ rows.flatten))

/-- Number of non-zero cells in one row. -/
def countNZ (row : List Nat) : Nat :=
  (row.filter (fun x => x != 0)).length

/-- Number of non-zero cells in the whole grid. -/
def countNonzero (rows : List (List Nat)) : Nat :=
  (rows.map countNZ).sum

/-- Total number of cells. -/
def totalCells (rows : List (List Nat)) : Nat :=
  (rows.map List.length).sum

/-- Sum of `2 ^ exponent` over the non-zero cells of a row. -/
def sumPow (row : List Nat) : Nat :=
  ((row.filter (fun x => x != 0)).map (fun e => 2 ^ e)).sum

/-- The cell at row `i`, column `j` (defaulting to `0` out of range). -/
def cellAt (rows : List (List Nat)) (i j : Nat) : Nat :=
  (rows.getD i []).getD j 0

/-- The rotation the spec prescribes before the left-collapse:
Left is the identity, Right reverses each row, Up transposes, Down
transposes and then reverses each row. -/
def rotateTo (dir : Direction) (rows : List (List Nat)) : List (List Nat) :=
  match dir with
  | .LEFT => rows
  | .RIGHT => reverseRows rows
  | .UP => transposeG rows
  | .DOWN => reverseRows (transposeG rows)

/-- The inverse rotation the spec prescribes after the left-collapse:
the inverse of `rotateTo` on rectangular grids (Down undoes the row
reversal first and then the transposition). -/
def rotateBack (dir : Direction) (rows : List (List Nat)) : List (List Nat) :=
  match dir with
  | .LEFT => rows
  | .RIGHT => reverseRows rows
  | .UP => transposeG rows
  | .DOWN => transposeG (reverseRows rows)

/- Row-level lemmas. -/

theorem compress_row_length (row : List Nat) : (compress_row row).length = row.length := by
  have h := List.length_filter_le (fun x => x != 0) row
  simp only [compress_row, List.length_append, List.length_replicate]
  omega

theorem countNZ_cons (a : Nat) (l : List Nat) :
    countNZ (a :: l) = (if a ≠ 0 then 1 else 0) + countNZ l := by
  by_cases h : a = 0 <;> simp [countNZ, List.filter_cons, h, Nat.add_comm]

theorem sumPow_cons (a : Nat) (l : List Nat) :
    sumPow (a :: l) = (if a ≠ 0 then 2 ^ a else 0) + sumPow l := by
  by_cases h : a = 0 <;> simp [sumPow, List.filter_cons, h]

theorem countNZ_set (row : List Nat) (j v : Nat) (h : j < row.length) :
    countNZ (row.set j v) + (if row[j] ≠ 0 then 1 else 0) =
      countNZ row + (if v ≠ 0 then 1 else 0) := by
  induction row generalizing j with
  | nil => simp at h
  | cons a t ih =>
    cases j with
    | zero => simp [countNZ_cons]; omega
    | succ j' =>
      simp only [List.set_cons_succ, countNZ_cons, List.getElem_cons_succ]
      have := ih j' (by simpa using h)
      omega

theorem sumPow_set (row : List Nat) (j v : Nat) (h : j < row.length) :
    sumPow (row.set j v) + (if row[j] ≠ 0 then 2 ^ row[j] else 0) =
      sumPow row + (if v ≠ 0 then 2 ^ v else 0) := by
  induction row generalizing j with
  | nil => simp at h
  | cons a t ih =>
    cases j with
    | zero => simp [sumPow_cons]; omega
    | succ j' =>
      simp only [List.set_cons_succ, sumPow_cons, List.getElem_cons_succ]
      have := ih j' (by simpa using h)
      omega

theorem mergeAt_length (row : List Nat) (i : Nat) : (mergeAt row i).length = row.length := by
  unfold mergeAt
  split <;> simp

theorem mergeAt_bounds (row : List Nat) (i : Nat)
    (h : row.getD i 0 = row.getD (i + 1) 0 ∧ row.getD i 0 ≠ 0) : i + 1 < row.length := by
  by_contra hc
  have hd : row.getD (i + 1) 0 = 0 := List.getD_eq_default _ _ (by omega)
  rw [hd] at h
  exact h.2 h.1

theorem mergeAt_count_le (row : List Nat) (i : Nat) : countNZ (mergeAt row i) ≤ countNZ row := by
  unfold mergeAt
  split
  case isFalse => exact Nat.le_refl _
  case isTrue hg =>
    have hb : i + 1 < row.length := mergeAt_bounds row i hg
    have hi : i < row.length := by omega
    have hv : row.getD i 0 = row[i] := List.getD_eq_getElem row 0 hi
    have hv1 : row.getD (i + 1) 0 = row[i + 1] := List.getD_eq_getElem row 0 hb
    have h1 := countNZ_set row i ((row.getD i 0 + 1) % 256) hi
    have h2 := countNZ_set (row.set i ((row.getD i 0 + 1) % 256)) (i + 1) 0
      (by rw [List.length_set]; exact hb)
    rw [List.getElem_set_ne (by omega) _] at h2
    rw [← hv] at h1
    rw [← hv1, ← hg.1] at h2
    have hnz : row.getD i 0 ≠ 0 := hg.2
    simp only [if_pos hnz, if_neg (by omega : ¬((0 : Nat) ≠ 0))] at h1 h2
    by_cases hz : (row.getD i 0 + 1) % 256 ≠ 0
    · rw [if_pos hz] at h1
      omega
    · rw [if_neg hz] at h1
      omega

/-- The merge step conserves the tile-value sum as long as the incremented
cell stays below the `u8` limit (the guard forces the cell at `i` to equal
the one at `i + 1`, so a bound on the latter bounds the increment). -/
theorem mergeAt_sum (row : List Nat) (i : Nat) (hsmall : row.getD (i + 1) 0 ≤ 254) :
    sumPow (mergeAt row i) = sumPow row := by
  unfold mergeAt
  split
  case isFalse => rfl
  case isTrue hg =>
    have hb : i + 1 < row.length := mergeAt_bounds row i hg
    have hi : i < row.length := by omega
    have hv : row.getD i 0 = row[i] := List.getD_eq_getElem row 0 hi
    have hv1 : row.getD (i + 1) 0 = row[i + 1] := List.getD_eq_getElem row 0 hb
    have hvs : row.getD i 0 ≤ 254 := by rw [hg.1]; exact hsmall
    have hmod : (row.getD i 0 + 1) % 256 = row.getD i 0 + 1 := Nat.mod_eq_of_lt (by omega)
    rw [hmod]
    have h1 := sumPow_set row i (row.getD i 0 + 1) hi
    have h2 := sumPow_set (row.set i (row.getD i 0 + 1)) (i + 1) 0
      (by rw [List.length_set]; exact hb)
    rw [List.getElem_set_ne (by omega) _] at h2
    rw [← hv] at h1
    rw [← hv1, ← hg.1] at h2
    have hnz : row.getD i 0 ≠ 0 := hg.2
    simp only [if_pos hnz, if_pos (by omega : row.getD i 0 + 1 ≠ 0), if_neg (by omega : ¬((0 : Nat) ≠ 0))] at h1 h2
    have hpow : 2 ^ (row.getD i 0 + 1) = 2 ^ row.getD i 0 * 2 := pow_succ 2 _
    omega

theorem foldl_mergeAt_length (l : List Nat) (row : List Nat) :
    (l.foldl mergeAt row).length = row.length := by
  induction l generalizing row with
  | nil => rfl
  | cons i l ih => rw [List.foldl_cons, ih, mergeAt_length]

theorem foldl_mergeAt_count_le (l : List Nat) (row : List Nat) :
    countNZ (l.foldl mergeAt row) ≤ countNZ row := by
  induction l generalizing row with
  | nil => exact Nat.le_refl _
  | cons i l ih => exact Nat.le_trans (ih _) (mergeAt_count_le row i)

theorem getD_set_ne (l : List Nat) (a m x : Nat) (h : a ≠ m) :
    (l.set a x).getD m 0 = l.getD m 0 := by
  by_cases hm : m < l.length
  · rw [List.getD_eq_getElem _ _ (by simpa using hm), List.getD_eq_getElem _ _ hm]
    exact List.getElem_set_ne h _
  · rw [List.getD_eq_default _ _ (by rw [List.length_set]; omega),
      List.getD_eq_default _ _ (by omega)]

/-- The merge pass over the first `k` indices writes only at positions up
to `k`, so every position past `k` still holds its original value — in
particular the right-hand cell read by each iteration is an original cell. -/
theorem foldl_mergeAt_getD_high (k : Nat) (row : List Nat) (m : Nat) (hm : k < m) :
    ((List.range k).foldl mergeAt row).getD m 0 = row.getD m 0 := by
  induction k with
  | zero => rfl
  | succ k ih =>
    rw [List.range_succ, List.foldl_append, List.foldl_cons, List.foldl_nil]
    have hM : ((List.range k).foldl mergeAt row).getD m 0 = row.getD m 0 := ih (by omega)
    unfold mergeAt
    split
    · rw [getD_set_ne _ _ _ _ (by omega), getD_set_ne _ _ _ _ (by omega)]
      exact hM
    · exact hM

/-- The whole merge pass conserves the tile-value sum on a row whose
exponents all stay below the `u8` limit: every firing guard compares
against an untouched original cell, so no increment wraps. -/
theorem foldl_mergeAt_sum_bounded (row : List Nat) (hb : ∀ x ∈ row, x ≤ 254) (k : Nat) :
    sumPow ((List.range k).foldl mergeAt row) = sumPow row := by
  induction k with
  | zero => rfl
  | succ k ih =>
    rw [List.range_succ, List.foldl_append, List.foldl_cons, List.foldl_nil]
    have hsmall : ((List.range k).foldl mergeAt row).getD (k + 1) 0 ≤ 254 := by
      rw [foldl_mergeAt_getD_high k row (k + 1) (by omega)]
      by_cases hk : k + 1 < row.length
      · rw [List.getD_eq_getElem _ _ hk]
        exact hb _ (List.getElem_mem hk)
      · rw [List.getD_eq_default _ _ (by omega)]
        omega
    rw [mergeAt_sum _ _ hsmall, ih]

theorem filter_nz_idem (row : List Nat) :
    (row.filter (fun x => x != 0)).filter (fun x => x != 0) = row.filter (fun x => x != 0) :=
  List.filter_eq_self.mpr (fun a ha => (List.mem_filter.mp ha).2)

theorem compress_row_count (row : List Nat) : countNZ (compress_row row) = countNZ row := by
  simp only [compress_row, countNZ, List.filter_append, List.filter_replicate]
  simp [filter_nz_idem]

theorem compress_row_sum (row : List Nat) : sumPow (compress_row row) = sumPow row := by
  simp only [compress_row, sumPow, List.filter_append, List.filter_replicate]
  simp [filter_nz_idem]

theorem combine_row_length (row : List Nat) : (combine_row row).length = row.length := by
  simp only [combine_row]
  rw [compress_row_length, foldl_mergeAt_length, compress_row_length]

/-- C8 groundwork: the merge loop and the two compressions neither increase
the number of occupied cells nor change the total tile-value sum. -/
theorem combine_row_count_le (row : List Nat) : countNZ (combine_row row) ≤ countNZ row := by
  simp only [combine_row]
  rw [compress_row_count]
  exact Nat.le_trans (foldl_mergeAt_count_le _ _) (Nat.le_of_eq (compress_row_count row))

theorem mem_compress_row (row : List Nat) (x : Nat) (hx : x ∈ compress_row row) :
    x ∈ row ∨ x = 0 := by
  simp only [compress_row] at hx
  rcases List.mem_append.mp hx with h | h
  · exact Or.inl (List.mem_filter.mp h).1
  · exact Or.inr (List.mem_replicate.mp h).2

theorem combine_row_sum (row : List Nat) (hb : ∀ x ∈ row, x ≤ 254) :
    sumPow (combine_row row) = sumPow row := by
  have hbc : ∀ x ∈ compress_row row, x ≤ 254 := by
    intro x hx
    rcases mem_compress_row row x hx with h | h
    · exact hb x h
    · omega
  simp only [combine_row]
  rw [compress_row_sum, foldl_mergeAt_sum_bounded _ hbc, compress_row_sum]

/- A row with no empty cell is left unchanged by compression and merging. -/

theorem compress_row_eq_of_no_zero (row : List Nat) (h : 0 ∉ compress_row row) :
    compress_row row = row := by
  by_cases hk : row.length - (row.filter (fun x => x != 0)).length = 0
  · have hle := List.length_filter_le (fun x => x != 0) row
    have hlen : (row.filter (fun x => x != 0)).length = row.length := by omega
    have hall : ∀ a ∈ row, (fun x => x != 0) a = true := List.filter_length_eq_length.mp hlen
    simp only [compress_row, hk, List.replicate_zero, List.append_nil]
    exact List.filter_eq_self.mpr hall
  · exfalso
    apply h
    simp only [compress_row]
    exact List.mem_append_right _ (List.mem_replicate.mpr ⟨hk, rfl⟩)

theorem mergeAt_eq_of_no_zero (row : List Nat) (i : Nat) (h : 0 ∉ mergeAt row i) :
    mergeAt row i = row := by
  by_cases hg : row.getD i 0 = row.getD (i + 1) 0 ∧ row.getD i 0 ≠ 0
  · exfalso
    have hb : i + 1 < row.length := mergeAt_bounds row i hg
    apply h
    unfold mergeAt
    rw [if_pos hg]
    have hlen : i + 1 < ((row.set i ((row.getD i 0 + 1) % 256)).set (i + 1) 0).length := by
      simp [hb]
    have hval : ((row.set i ((row.getD i 0 + 1) % 256)).set (i + 1) 0)[i + 1] = 0 := by
      rw [List.getElem_set]
      simp
    exact List.mem_iff_getElem.mpr ⟨i + 1, hlen, hval⟩
  · unfold mergeAt
    rw [if_neg hg]

theorem foldl_mergeAt_eq_of_no_zero (l : List Nat) (row : List Nat)
    (h : 0 ∉ l.foldl mergeAt row) : l.foldl mergeAt row = row := by
  induction l using List.reverseRecOn with
  | nil => rfl
  | append_singleton l i ih =>
    rw [List.foldl_append, List.foldl_cons, List.foldl_nil] at h ⊢
    have hm : mergeAt (l.foldl mergeAt row) i = l.foldl mergeAt row :=
      mergeAt_eq_of_no_zero _ _ h
    rw [hm] at h ⊢
    exact ih h

theorem combine_row_eq_of_no_zero (row : List Nat) (h : 0 ∉ combine_row row) :
    combine_row row = row := by
  have hdef : combine_row row =
      compress_row ((List.range ((compress_row row).length - 1)).foldl mergeAt (compress_row row)) :=
    rfl
  rw [hdef] at h
  have h1 : compress_row ((List.range ((compress_row row).length - 1)).foldl mergeAt (compress_row row)) =
      (List.range ((compress_row row).length - 1)).foldl mergeAt (compress_row row) :=
    compress_row_eq_of_no_zero _ h
  rw [h1] at h
  have h2 : (List.range ((compress_row row).length - 1)).foldl mergeAt (compress_row row) =
      compress_row row := foldl_mergeAt_eq_of_no_zero _ _ h
  rw [h2] at h
  have h3 : compress_row row = row := compress_row_eq_of_no_zero _ h
  rw [hdef, h1, h2, h3]

/- Transposition and row reversal. -/

theorem transposeG_length (rows : List (List Nat)) :
    (transposeG rows).length = (rows.headD []).length := by
  simp [transposeG]

theorem length_of_mem_transposeG (rows : List (List Nat)) :
    ∀ r ∈ transposeG rows, r.length = rows.length := by
  intro r hr
  simp only [transposeG, List.mem_map, List.mem_range] at hr
  obtain ⟨c, _, rfl⟩ := hr
  simp

theorem getElem_transposeG (rows : List (List Nat)) (c : Nat)
    (h : c < (transposeG rows).length) :
    (transposeG rows)[c] = rows.map (fun row => row.getD c 0) := by
  simp [transposeG]

theorem headD_length_of_rect (rows : List (List Nat)) (w : Nat)
    (hne : rows ≠ []) (hrect : IsRect rows w) : (rows.headD []).length = w := by
  cases rows with
  | nil => exact absurd rfl hne
  | cons a t =>
    rw [List.headD_cons]
    exact hrect a (List.mem_cons_self a t)

theorem IsRect_transposeG (rows : List (List Nat)) :
    IsRect (transposeG rows) rows.length :=
  length_of_mem_transposeG rows

theorem transposeG_ne_nil (rows : List (List Nat)) (w : Nat)
    (hne : rows ≠ []) (hw : 0 < w) (hrect : IsRect rows w) : transposeG rows ≠ [] := by
  have h : (transposeG rows).length = w := by
    rw [transposeG_length, headD_length_of_rect rows w hne hrect]
  exact List.length_pos.mp (h ▸ hw)

theorem transposeG_transposeG (rows : List (List Nat)) (w : Nat)
    (hne : rows ≠ []) (hw : 0 < w) (hrect : IsRect rows w) :
    transposeG (transposeG rows) = rows := by
  have hhead : (rows.headD []).length = w := headD_length_of_rect rows w hne hrect
  have hlen : (transposeG rows).length = w := by rw [transposeG_length, hhead]
  have hne2 : transposeG rows ≠ [] := transposeG_ne_nil rows w hne hw hrect
  have hhead2 : ((transposeG rows).headD []).length = rows.length := by
    cases htr : transposeG rows with
    | nil => exact absurd htr hne2
    | cons a t =>
      rw [List.headD_cons]
      exact length_of_mem_transposeG rows a (htr ▸ List.mem_cons_self a t)
  apply List.ext_getElem
  · rw [transposeG_length, hhead2]
  · intro i h1 h2
    rw [getElem_transposeG _ _ h1]
    have hmap : (transposeG rows).map (fun row => row.getD i 0) =
        (List.range w).map (fun c => rows[i].getD c 0) := by
      simp only [transposeG, hhead, List.map_map]
      apply List.map_congr_left
      intro c hc
      rw [List.mem_range] at hc
      simp only [Function.comp]
      rw [List.getD_eq_getElem _ _ (by simpa using h2), List.getElem_map]
    rw [hmap]
    apply List.ext_getElem
    · simp [hrect rows[i] (List.getElem_mem h2)]
    · intro c hc1 hc2
      simp only [List.getElem_map, List.getElem_range]
      rw [List.getD_eq_getElem _ _ hc2]

theorem reverseRows_reverseRows (rows : List (List Nat)) :
    reverseRows (reverseRows rows) = rows := by
  simp [reverseRows, List.map_map, Function.comp_def]

theorem IsRect_reverseRows (rows : List (List Nat)) (w : Nat) (hrect : IsRect rows w) :
    IsRect (reverseRows rows) w := by
  intro r hr
  simp only [reverseRows, List.mem_map] at hr
  obtain ⟨r', hr', rfl⟩ := hr
  simp [hrect r' hr']

theorem reverseRows_length (rows : List (List Nat)) :
    (reverseRows rows).length = rows.length := by
  simp [reverseRows]

theorem reverseRows_ne_nil (rows : List (List Nat)) (hne : rows ≠ []) :
    reverseRows rows ≠ [] := by
  simp [reverseRows, hne]

theorem IsRect_map_combine (rows : List (List Nat)) (w : Nat) (hrect : IsRect rows w) :
    IsRect (rows.map combine_row) w := by
  intro r hr
  simp only [List.mem_map] at hr
  obtain ⟨r', hr', rfl⟩ := hr
  rw [combine_row_length]
  exact hrect r' hr'

theorem map_combine_ne_nil (rows : List (List Nat)) (hne : rows ≠ []) :
    rows.map combine_row ≠ [] := by
  simp [hne]

/-- The inverse rotation really is the inverse of the rotation. -/
theorem rotateBack_rotateTo (dir : Direction) (rows : List (List Nat)) (w : Nat)
    (hne : rows ≠ []) (hw : 0 < w) (hrect : IsRect rows w) :
    rotateBack dir (rotateTo dir rows) = rows := by
  cases dir with
  | LEFT => rfl
  | RIGHT => exact reverseRows_reverseRows rows
  | UP => exact transposeG_transposeG rows w hne hw hrect
  | DOWN =>
    show transposeG (reverseRows (reverseRows (transposeG rows))) = rows
    rw [reverseRows_reverseRows]
    exact transposeG_transposeG rows w hne hw hrect

/- Zero-cell membership is invariant under the two rotations. -/

theorem mem_flatten_reverseRows (rows : List (List Nat)) (x : Nat) :
    x ∈ (reverseRows rows).flatten ↔ x ∈ rows.flatten := by
  constructor
  · intro hx
    obtain ⟨l, hl, hxl⟩ := List.mem_flatten.mp hx
    obtain ⟨r, hr, rfl⟩ := List.mem_map.mp hl
    exact List.mem_flatten.mpr ⟨r, hr, List.mem_reverse.mp hxl⟩
  · intro hx
    obtain ⟨r, hr, hxr⟩ := List.mem_flatten.mp hx
    exact List.mem_flatten.mpr
      ⟨r.reverse, List.mem_map_of_mem _ hr, List.mem_reverse.mpr hxr⟩

theorem mem_flatten_transposeG (rows : List (List Nat)) (w : Nat) (hrect : IsRect rows w)
    (x : Nat) : x ∈ (transposeG rows).flatten ↔ x ∈ rows.flatten := by
  constructor
  · intro hx
    obtain ⟨l, hl, hxl⟩ := List.mem_flatten.mp hx
    simp only [transposeG, List.mem_map, List.mem_range] at hl
    obtain ⟨c, hc, rfl⟩ := hl
    obtain ⟨r, hr, rfl⟩ := List.mem_map.mp hxl
    have hne : rows ≠ [] := List.ne_nil_of_mem hr
    have hcw : c < r.length := by
      rw [hrect r hr, ← headD_length_of_rect rows w hne hrect]
      exact hc
    rw [List.getD_eq_getElem _ _ hcw]
    exact List.mem_flatten.mpr ⟨r, hr, List.getElem_mem hcw⟩
  · intro hx
    obtain ⟨r, hr, hxr⟩ := List.mem_flatten.mp hx
    obtain ⟨c, hc, rfl⟩ := List.mem_iff_getElem.mp hxr
    have hne : rows ≠ [] := List.ne_nil_of_mem hr
    have hcw : c < (rows.headD []).length := by
      rw [headD_length_of_rect rows w hne hrect, ← hrect r hr]
      exact hc
    apply List.mem_flatten.mpr
    refine ⟨rows.map (fun row => row.getD c 0), ?_, ?_⟩
    · simp only [transposeG, List.mem_map, List.mem_range]
      exact ⟨c, hcw, rfl⟩
    · have : r.getD c 0 = r[c] := List.getD_eq_getElem _ _ hc
      exact this ▸ List.mem_map_of_mem _ hr

theorem map_combine_eq_of_no_zero (rs : List (List Nat))
    (h : 0 ∉ (rs.map combine_row).flatten) : rs.map combine_row = rs := by
  have hall : ∀ r ∈ rs, combine_row r = r := by
    intro r hr
    apply combine_row_eq_of_no_zero
    intro hc
    exact h (List.mem_flatten.mpr ⟨combine_row r, List.mem_map_of_mem _ hr, hc⟩)
  calc rs.map combine_row = rs.map id := List.map_congr_left hall
  _ = rs := List.map_id rs

/-- A collapse that leaves no empty cell must have left the grid unchanged:
every merge frees a cell, and compression only moves existing zeros. -/
theorem slidePre_eq_of_no_zero (dir : Direction) (rows : List (List Nat)) (w : Nat)
    (hne : rows ≠ []) (hw : 0 < w) (hrect : IsRect rows w)
    (h : 0 ∉ (slidePre dir rows).flatten) : slidePre dir rows = rows := by
  cases dir with
  | LEFT =>
    exact map_combine_eq_of_no_zero rows h
  | RIGHT =>
    show reverseRows ((reverseRows rows).map combine_row) = rows
    have h1 : 0 ∉ ((reverseRows rows).map combine_row).flatten := by
      intro hc
      exact h ((mem_flatten_reverseRows _ 0).mpr hc)
    rw [map_combine_eq_of_no_zero _ h1, reverseRows_reverseRows]
  | UP =>
    show transposeG ((transposeG rows).map combine_row) = rows
    have hrectT : IsRect (transposeG rows) rows.length := IsRect_transposeG rows
    have hrectM : IsRect ((transposeG rows).map combine_row) rows.length :=
      IsRect_map_combine _ _ hrectT
    have h1 : 0 ∉ ((transposeG rows).map combine_row).flatten := by
      intro hc
      exact h ((mem_flatten_transposeG _ rows.length hrectM 0).mpr hc)
    rw [map_combine_eq_of_no_zero _ h1]
    exact transposeG_transposeG rows w hne hw hrect
  | DOWN =>
    show transposeG (reverseRows ((reverseRows (transposeG rows)).map combine_row)) = rows
    have hrectT : IsRect (transposeG rows) rows.length := IsRect_transposeG rows
    have hrectR : IsRect (reverseRows (transposeG rows)) rows.length :=
      IsRect_reverseRows _ _ hrectT
    have hrectM : IsRect ((reverseRows (transposeG rows)).map combine_row) rows.length :=
      IsRect_map_combine _ _ hrectR
    have hrectRM : IsRect (reverseRows ((reverseRows (transposeG rows)).map combine_row))
        rows.length := IsRect_reverseRows _ _ hrectM
    have h1 : 0 ∉ ((reverseRows (transposeG rows)).map combine_row).flatten := by
      intro hc
      apply h
      apply (mem_flatten_transposeG _ rows.length hrectRM 0).mpr
      exact (mem_flatten_reverseRows _ 0).mpr hc
    rw [map_combine_eq_of_no_zero _ h1, reverseRows_reverseRows]
    exact transposeG_transposeG rows w hne hw hrect

/- The zero-cell enumeration of add_random_number. -/

theorem mem_enum_iff (l : List Nat) (i : Nat) (a : Nat) :
    (i, a) ∈ l.enum ↔ ∃ h : i < l.length, l[i] = a := by
  rw [List.mem_enum_iff_getElem?]
  constructor
  · intro h
    have hi : i < l.length := by
      by_contra hc
      rw [List.getElem?_eq_none (by omega)] at h
      exact Option.noConfusion h
    rw [List.getElem?_eq_getElem hi] at h
    exact ⟨hi, Option.some.inj h⟩
  · intro ⟨hi, ha⟩
    rw [List.getElem?_eq_getElem hi, ha]

theorem mem_enum_iff_rows (rows : List (List Nat)) (i : Nat) (r : List Nat) :
    (i, r) ∈ rows.enum ↔ ∃ h : i < rows.length, rows[i] = r := by
  rw [List.mem_enum_iff_getElem?]
  constructor
  · intro h
    have hi : i < rows.length := by
      by_contra hc
      rw [List.getElem?_eq_none (by omega)] at h
      exact Option.noConfusion h
    rw [List.getElem?_eq_getElem hi] at h
    exact ⟨hi, Option.some.inj h⟩
  · intro ⟨hi, ha⟩
    rw [List.getElem?_eq_getElem hi, ha]

theorem mem_zerosList (rows : List (List Nat)) (p : Nat × Nat) (hp : p ∈ zerosList rows) :
    p.1 < rows.length ∧ p.2 < (rows.getD p.1 []).length ∧ (rows.getD p.1 []).getD p.2 0 = 0 := by
  obtain ⟨q, hq, hpq⟩ := List.mem_flatMap.mp hp
  obtain ⟨b, hb, hbp⟩ := List.mem_map.mp hpq
  obtain ⟨hb1, hb2⟩ := List.mem_filter.mp hb
  obtain ⟨hi, hrow⟩ := (mem_enum_iff_rows rows q.1 q.2).mp hq
  obtain ⟨hj, hcell⟩ := (mem_enum_iff q.2 b.1 b.2).mp hb1
  have hb0 : b.2 = 0 := by simpa using hb2
  subst hbp
  refine ⟨hi, ?_, ?_⟩
  · show b.1 < (rows.getD q.1 []).length
    rw [List.getD_eq_getElem _ _ hi, hrow]
    exact hj
  · show (rows.getD q.1 []).getD b.1 0 = 0
    rw [List.getD_eq_getElem _ _ hi, hrow, List.getD_eq_getElem _ _ hj, hcell, hb0]

theorem zerosList_eq_nil_iff (rows : List (List Nat)) :
    zerosList rows = [] ↔ 0 ∉ rows.flatten := by
  rw [zerosList, List.flatMap_eq_nil_iff]
  constructor
  · intro h hx
    obtain ⟨r, hr, h0r⟩ := List.mem_flatten.mp hx
    obtain ⟨i, hi, hri⟩ := List.mem_iff_getElem.mp hr
    obtain ⟨j, hj, hrj⟩ := List.mem_iff_getElem.mp h0r
    have hmem : (i, r) ∈ rows.enum := (mem_enum_iff_rows rows i r).mpr ⟨hi, hri⟩
    have := h (i, r) hmem
    rw [List.map_eq_nil_iff, List.filter_eq_nil_iff] at this
    have hjm : (j, (0 : Nat)) ∈ r.enum := (mem_enum_iff r j 0).mpr ⟨hj, hrj⟩
    have := this (j, 0) hjm
    simp at this
  · intro h p hp
    rw [List.map_eq_nil_iff, List.filter_eq_nil_iff]
    intro q hq
    obtain ⟨hi, hrow⟩ := (mem_enum_iff_rows rows p.1 p.2).mp hp
    obtain ⟨hj, hcell⟩ := (mem_enum_iff p.2 q.1 q.2).mp hq
    have hqmem : q.2 ∈ p.2 := hcell ▸ List.getElem_mem hj
    have hpmem : p.2 ∈ rows := hrow ▸ List.getElem_mem hi
    have : q.2 ≠ 0 := by
      intro hc
      exact h (List.mem_flatten.mpr ⟨p.2, hpmem, hc ▸ hqmem⟩)
    simpa using this

/- Counting non-zero cells through a single-cell update. -/

theorem countNonzero_cons (r : List Nat) (rs : List (List Nat)) :
    countNonzero (r :: rs) = countNZ r + countNonzero rs := by
  simp [countNonzero]

theorem countNonzero_update (rows : List (List Nat)) (i j v : Nat)
    (hi : i < rows.length) (hj : j < rows[i].length) (h0 : rows[i][j] = 0) (hv : v ≠ 0) :
    countNonzero (updateCell rows i j v) = countNonzero rows + 1 := by
  induction rows generalizing i with
  | nil => simp at hi
  | cons r rs ih =>
    cases i with
    | zero =>
      simp only [updateCell, List.getD_cons_zero, List.set_cons_zero, countNonzero_cons]
      have hj0 : j < r.length := by simpa using hj
      have hset := countNZ_set r j v hj0
      have hr0 : r[j] = 0 := by simpa using h0
      rw [hr0] at hset
      simp only [if_neg (by omega : ¬((0:Nat) ≠ 0)), if_pos hv] at hset
      omega
    | succ i' =>
      simp only [updateCell, List.getD_cons_succ, List.set_cons_succ, countNonzero_cons]
      have := ih i' (by simpa using hi) (by simpa using hj) (by simpa using h0)
      simp only [updateCell] at this
      omega

theorem updateCell_length (rows : List (List Nat)) (i j v : Nat) :
    (updateCell rows i j v).length = rows.length := by
  simp [updateCell]

theorem IsRect_updateCell (rows : List (List Nat)) (w : Nat) (i j v : Nat)
    (hi : i < rows.length) (hrect : IsRect rows w) : IsRect (updateCell rows i j v) w := by
  intro r hr
  rcases List.mem_or_eq_of_mem_set hr with h | rfl
  · exact hrect r h
  · rw [List.length_set, List.getD_eq_getElem _ _ hi]
    exact hrect _ (List.getElem_mem hi)

theorem totalCells_updateCell (rows : List (List Nat)) (i j v : Nat)
    (hi : i < rows.length) : totalCells (updateCell rows i j v) = totalCells rows := by
  unfold totalCells updateCell
  rw [List.map_set]
  rw [List.length_set, List.getD_eq_getElem _ _ hi]
  induction rows generalizing i with
  | nil => simp at hi
  | cons r rs ih =>
    cases i with
    | zero => simp
    | succ i' =>
      simp only [List.getElem_cons_succ, List.set_cons_succ, List.map_cons, List.sum_cons]
      rw [ih i' (by simpa using hi)]

theorem mem_flatten_updateCell (rows : List (List Nat)) (i j v : Nat) (x : Nat)
    (hx : x ∈ (updateCell rows i j v).flatten) : x ∈ rows.flatten ∨ x = v := by
  obtain ⟨r, hr, hxr⟩ := List.mem_flatten.mp hx
  rcases List.mem_or_eq_of_mem_set hr with h | rfl
  · exact Or.inl (List.mem_flatten.mpr ⟨r, h, hxr⟩)
  · rcases List.mem_or_eq_of_mem_set hxr with h | rfl
    · by_cases hi : i < rows.length
      · rw [List.getD_eq_getElem _ _ hi] at h
        exact Or.inl (List.mem_flatten.mpr ⟨rows[i], List.getElem_mem hi, h⟩)
      · rw [List.getD_eq_default _ _ (by omega)] at h
        simp at h
    · exact Or.inr rfl

/-- A grid with no zero cell has as many occupied cells as cells. -/
theorem countNonzero_eq_totalCells_of_full (rows : List (List Nat))
    (h : 0 ∉ rows.flatten) : countNonzero rows = totalCells rows := by
  unfold countNonzero totalCells
  congr 1
  apply List.map_congr_left
  intro r hr
  have hall : ∀ a ∈ r, (fun x => x != 0) a = true := by
    intro a ha
    have : a ≠ 0 := by
      intro hc
      exact h (List.mem_flatten.mpr ⟨r, hr, hc ▸ ha⟩)
    simpa using this
  unfold countNZ
  rw [List.filter_eq_self.mpr hall]

theorem zerosList_ne_nil_of_count_lt (rows : List (List Nat))
    (h : countNonzero rows < totalCells rows) : zerosList rows ≠ [] := by
  intro hc
  rw [zerosList_eq_nil_iff] at hc
  rw [countNonzero_eq_totalCells_of_full rows hc] at h
  omega

/- Behaviour of the random spawn. -/

theorem spawnPower_ne_zero (s : List Nat) : spawnPower s ≠ 0 := by
  unfold spawnPower
  split <;> omega

theorem spawnPower_one_or_two (s : List Nat) : spawnPower s = 1 ∨ spawnPower s = 2 := by
  unfold spawnPower
  split <;> simp

theorem add_random_number_eq_error_iff (g : Grid) (s : List Nat) (e : String) :
    g.add_random_number s = .error e ↔ (zerosList g.rows = [] ∧ e = "no more options") := by
  unfold Grid.add_random_number
  by_cases hc : (zerosList g.rows).isEmpty = true
  · rw [if_pos hc]
    simp [List.isEmpty_iff.mp hc, eq_comm]
  · rw [if_neg hc]
    rw [List.isEmpty_iff] at hc
    simp [hc]

theorem add_random_number_ok (g : Grid) (s : List Nat) (h : zerosList g.rows ≠ []) :
    ∃ p ∈ zerosList g.rows,
      g.add_random_number s =
        .ok { rows := updateCell g.rows p.1 p.2 (spawnPower (s.drop 1)),
              pipes := defaultGrid.pipes } := by
  unfold Grid.add_random_number
  have hne : ¬ (zerosList g.rows).isEmpty = true := fun hc => h (List.isEmpty_iff.mp hc)
  rw [if_neg hne]
  have hpos : 0 < (zerosList g.rows).length := List.length_pos.mpr h
  have hlt : genRange 0 (zerosList g.rows).length s < (zerosList g.rows).length := by
    unfold genRange
    simpa using Nat.mod_lt _ hpos
  refine ⟨(zerosList g.rows).getD (genRange 0 (zerosList g.rows).length s) (0, 0), ?_, rfl⟩
  rw [List.getD_eq_getElem _ _ hlt]
  exact List.getElem_mem hlt

/-- Everything the claims need about a successful spawn, in one bundle. -/
theorem add_random_number_ok_spec (g : Grid) (s : List Nat) (h : zerosList g.rows ≠ []) :
    ∃ g', g.add_random_number s = .ok g' ∧
      countNonzero g'.rows = countNonzero g.rows + 1 ∧
      g'.rows.length = g.rows.length ∧
      (∀ w, IsRect g.rows w → IsRect g'.rows w) ∧
      totalCells g'.rows = totalCells g.rows ∧
      (∀ x ∈ g'.rows.flatten, x ∈ g.rows.flatten ∨ x = spawnPower (s.drop 1)) ∧
      g'.pipes = defaultGrid.pipes := by
  obtain ⟨p, hpmem, heq⟩ := add_random_number_ok g s h
  obtain ⟨hi, hj', h0'⟩ := mem_zerosList g.rows p hpmem
  have hgd : g.rows.getD p.1 [] = g.rows[p.1] := List.getD_eq_getElem _ _ hi
  rw [hgd] at hj' h0'
  have h0 : g.rows[p.1][p.2] = 0 := by
    rw [List.getD_eq_getElem _ _ hj'] at h0'
    exact h0'
  refine ⟨_, heq, ?_, ?_, ?_, ?_, ?_, rfl⟩
  · exact countNonzero_update g.rows p.1 p.2 _ hi hj' h0 (spawnPower_ne_zero _)
  · exact updateCell_length g.rows p.1 p.2 _
  · intro w hrect
    exact IsRect_updateCell g.rows w p.1 p.2 _ hi hrect
  · exact totalCells_updateCell g.rows p.1 p.2 _ hi
  · intro x hx
    exact mem_flatten_updateCell g.rows p.1 p.2 _ x hx

/- Behaviour of slide. -/

theorem slide_def_eq (g : Grid) (dir : Direction) (s : List Nat) :
    g.slide dir s =
      match Grid.add_random_number { rows := slidePre dir g.rows, pipes := defaultGrid.pipes } s with
      | .error e => .error e
      | .ok gn =>
        if slidePre dir g.rows ≠ g.rows then .ok gn
        else .ok { rows := slidePre dir g.rows, pipes := defaultGrid.pipes } := rfl

theorem slide_eq_error_iff (g : Grid) (dir : Direction) (s : List Nat) (e : String) :
    g.slide dir s = .error e ↔
      (zerosList (slidePre dir g.rows) = [] ∧ e = "no more options") := by
  rw [slide_def_eq]
  rcases hres : Grid.add_random_number { rows := slidePre dir g.rows, pipes := defaultGrid.pipes } s
    with e' | gn
  · rw [add_random_number_eq_error_iff] at hres
    show (Except.error e' : Except String Grid) = Except.error e ↔ _
    constructor
    · intro h
      have he : e' = e := Except.error.inj h
      exact ⟨hres.1, he ▸ hres.2⟩
    · intro ⟨_, h2⟩
      rw [hres.2, h2]
  · have hz : zerosList (slidePre dir g.rows) ≠ [] := by
      intro hc
      have herr := (add_random_number_eq_error_iff
        { rows := slidePre dir g.rows, pipes := defaultGrid.pipes } s "no more options").mpr
        ⟨hc, rfl⟩
      rw [hres] at herr
      exact Except.noConfusion herr
    show (if slidePre dir g.rows ≠ g.rows then Except.ok gn
        else Except.ok { rows := slidePre dir g.rows, pipes := defaultGrid.pipes }) =
        Except.error e ↔ _
    constructor
    · intro h
      split at h <;> exact absurd h (by simp)
    · intro ⟨h1, _⟩
      exact absurd h1 hz

theorem add_random_number_pipes (g : Grid) (s : List Nat) (g' : Grid)
    (h : g.add_random_number s = .ok g') : g'.pipes = defaultGrid.pipes := by
  simp only [Grid.add_random_number] at h
  split at h
  · exact Except.noConfusion h
  · rw [← Except.ok.inj h]

theorem slide_pipes (g : Grid) (dir : Direction) (s : List Nat) (g' : Grid)
    (h : g.slide dir s = .ok g') : g'.pipes = defaultGrid.pipes := by
  rw [slide_def_eq] at h
  split at h
  · exact Except.noConfusion h
  · rename_i gn hma
    split at h
    · rw [← Except.ok.inj h]
      exact add_random_number_pipes _ s gn hma
    · rw [← Except.ok.inj h]

/-- C8 (corrected): row-collapse never increases the number of occupied
cells of a row; and on every row whose exponents are all below 255 — so
that no merge increment reaches the `u8` limit — it preserves the sum of
`2 ^ exponent` over the occupied cells (each such merge turns two equal
tiles `2 ^ n` into one tile `2 ^ (n + 1)`).  At exponent 255 the 8-bit
increment wraps (or panics in a checked build) and conservation fails,
see the counterexample below. -/
theorem combine_row_occupancy_and_sum (row : List Nat) :
    countNZ (combine_row row) ≤ countNZ row
    ∧ ((∀ x ∈ row, x ≤ 254) → sumPow (combine_row row) = sumPow row) :=
  ⟨combine_row_count_le row, fun hb => combine_row_sum row hb⟩

/-- Witness for C8 at the source's own `combine_row` test row. -/
theorem combine_row_occupancy_and_sum_witness :
    countNZ (combine_row [2, 2, 3, 4, 6, 6, 5, 0, 6]) ≤ countNZ [2, 2, 3, 4, 6, 6, 5, 0, 6]
    ∧ sumPow (combine_row [2, 2, 3, 4, 6, 6, 5, 0, 6]) = sumPow [2, 2, 3, 4, 6, 6, 5, 0, 6] :=
  ⟨(combine_row_occupancy_and_sum [2, 2, 3, 4, 6, 6, 5, 0, 6]).1,
   (combine_row_occupancy_and_sum [2, 2, 3, 4, 6, 6, 5, 0, 6]).2 (by decide)⟩

/-- Counterexample to C8 as stated: on the row `[255, 255]` (inside the
spec's `u8` data model and reachable through `from_rows` plus `slide`) the
merge increments a cell holding 255, the 8-bit value wraps to zero, and
the collapsed row is `[0, 0]` — the tile-value sum drops from
`2 * 2 ^ 255` to `0` instead of being conserved. -/
theorem combine_row_sum_overflow_cex :
    combine_row [255, 255] = [0, 0]
    ∧ sumPow (combine_row [255, 255]) ≠ sumPow [255, 255] := by
  refine ⟨by decide, ?_⟩
  decide

/-- C7: for every non-empty rectangular cell array and every direction, the
pre-spawn cell array computed by `slide` is obtained by rotating (Left =
identity, Right = reverse each row, Up = transpose, Down = transpose then
reverse each row), collapsing every row with the single left-collapse
routine, and applying the inverse rotation; and the rotate-back map really
is the inverse of the rotation on such arrays. -/
theorem slidePre_rotation_decomposition (rows : List (List Nat)) (w : Nat) (dir : Direction)
    (hne : rows ≠ []) (hw : 0 < w) (hrect : IsRect rows w) :
    slidePre dir rows = rotateBack dir ((rotateTo dir rows).map combine_row)
    ∧ rotateBack dir (rotateTo dir rows) = rows :=
  ⟨by cases dir <;> rfl, rotateBack_rotateTo dir rows w hne hw hrect⟩

/-- Witness for C7 at a concrete 2 by 2 array and the Down direction. -/
theorem slidePre_rotation_decomposition_witness :
    slidePre .DOWN [[1, 2], [3, 4]] =
      rotateBack .DOWN ((rotateTo .DOWN [[1, 2], [3, 4]]).map combine_row)
    ∧ rotateBack .DOWN (rotateTo .DOWN [[1, 2], [3, 4]]) = [[1, 2], [3, 4]] :=
  slidePre_rotation_decomposition [[1, 2], [3, 4]] 2 .DOWN (by decide) (by decide) (by decide)

/-- C3 (code bug): the source draws `rng.gen_range(1..10)`, a value in
`[1, 9]`, and compares it with `10`, so the spawned exponent is `1` for
every state of the random source; exponent `2` (tile value 4) is never
spawned, contradicting the intended 1-in-10 chance.  The second conjunct
evaluates the spawn on a concrete empty grid. -/
theorem spawn_exponent_always_one :
    (∀ s : List Nat, spawnPower s = 1)
    ∧ (Grid.from_rows [[0, 0], [0, 0]]).add_random_number [0, 0] =
        .ok (Grid.from_rows [[1, 0], [0, 0]]) := by
  constructor
  · intro s
    unfold spawnPower genRange
    rw [if_neg (by omega)]
  · rfl

/-- C2 (code bug): on a 3-row by 2-column grid of empty cells the renderer
produces 7 lines of 7 characters, but `get_size` reports `(10, 5)` — it
computes the character width from the row count and the line count from
the column count. -/
theorem get_size_swapped_on_nonsquare :
    get_size (Grid.from_rows [[0, 0], [0, 0], [0, 0]]) = (10, 5)
    ∧ (renderLines (Grid.from_rows [[0, 0], [0, 0], [0, 0]])).length = 7
    ∧ (renderLines (Grid.from_rows [[0, 0], [0, 0], [0, 0]])).map String.length =
        [7, 7, 7, 7, 7, 7, 7] :=
  ⟨rfl, rfl, rfl⟩

/-- C10: `from_rows` accepts any cell array without validation (its cell
array is stored verbatim, even empty), and on the empty array the indexing
performed by `get_size` and the renderer, and the `usize` subtraction in
row-collapse on a zero-length row, all fall outside the total domain. -/
theorem from_rows_no_validation :
    (∀ rows, (Grid.from_rows rows).rows = rows)
    ∧ get_sizeChecked (Grid.from_rows []) = none
    ∧ renderLinesChecked (Grid.from_rows []) = none
    ∧ combine_rowChecked [] = none :=
  ⟨fun _ => rfl, rfl, rfl, rfl⟩

/-- C9: every grid returned by `slide` or by the internal random spawn
carries the default Thick preset, even when the input grid had a preset
selected with `with_pipes` — both constructions use `..Default::default()`
for the `pipes` field. -/
theorem slide_and_spawn_reset_pipes (g : Grid) (p : PipeMap) (dir : Direction) (s : List Nat) :
    (∀ g', (g.with_pipes p).slide dir s = .ok g' → g'.pipes = PIPEMAP_THICK)
    ∧ (∀ g', (g.with_pipes p).add_random_number s = .ok g' → g'.pipes = PIPEMAP_THICK) :=
  ⟨fun g' h => slide_pipes _ dir s g' h,
   fun g' h => add_random_number_pipes _ s g' h⟩

/-- Witness for C9: a Medium-preset grid slid left, and the same grid with a
tile spawned, both come back with the Thick preset. -/
theorem slide_and_spawn_reset_pipes_witness :
    ∃ g', ((Grid.from_rows [[1, 1], [0, 0]]).with_pipes PIPEMAP_MEDIUM).slide .LEFT [] = .ok g'
      ∧ g'.pipes = PIPEMAP_THICK
      ∧ ∃ g'', ((Grid.from_rows [[1, 1], [0, 0]]).with_pipes PIPEMAP_MEDIUM).add_random_number []
          = .ok g'' ∧ g''.pipes = PIPEMAP_THICK := by
  refine ⟨{ rows := [[2, 1], [0, 0]], pipes := PIPEMAP_THICK }, rfl, ?_,
    { rows := [[1, 1], [1, 0]], pipes := PIPEMAP_THICK }, rfl, ?_⟩
  · exact (slide_and_spawn_reset_pipes (Grid.from_rows [[1, 1], [0, 0]])
      PIPEMAP_MEDIUM .LEFT []).1 _ rfl
  · exact (slide_and_spawn_reset_pipes (Grid.from_rows [[1, 1], [0, 0]])
      PIPEMAP_MEDIUM .LEFT []).2 _ rfl

/-- C1 (corrected): on a non-empty rectangular grid, `slide(dir)` returns
the game-over signal exactly when the grid has zero empty cells AND the
collapse in the requested direction leaves the cell array unchanged; in
every other case it returns a grid.  (The code signals game over for the
requested direction alone; a full grid that still has a legal move in some
other direction is nevertheless signalled, see the counterexample below.) -/
theorem slide_gameover_characterization (g : Grid) (w : Nat) (dir : Direction) (s : List Nat)
    (hne : g.rows ≠ []) (hw : 0 < w) (hrect : IsRect g.rows w) :
    (g.slide dir s = .error "no more options" ↔
      gridFull g.rows ∧ slidePre dir g.rows = g.rows)
    ∧ (¬(gridFull g.rows ∧ slidePre dir g.rows = g.rows) →
        ∃ g', g.slide dir s = .ok g') := by
  have hmain : zerosList (slidePre dir g.rows) = [] ↔
      (gridFull g.rows ∧ slidePre dir g.rows = g.rows) := by
    constructor
    · intro hz
      have hfullpre : 0 ∉ (slidePre dir g.rows).flatten := (zerosList_eq_nil_iff _).mp hz
      have hunch := slidePre_eq_of_no_zero dir g.rows w hne hw hrect hfullpre
      refine ⟨?_, hunch⟩
      show 0 ∉ g.rows.flatten
      rw [← hunch]
      exact hfullpre
    · intro ⟨hfull, hunch⟩
      rw [hunch]
      exact (zerosList_eq_nil_iff _).mpr hfull
  constructor
  · rw [slide_eq_error_iff]
    constructor
    · intro ⟨h1, _⟩
      exact hmain.mp h1
    · intro h
      exact ⟨hmain.mpr h, rfl⟩
  · intro hn
    rcases hcase : g.slide dir s with e | g'
    · exfalso
      obtain ⟨h1, _⟩ := (slide_eq_error_iff g dir s e).mp hcase
      exact hn (hmain.mp h1)
    · exact ⟨g', rfl⟩

/-- Witness for C1: a full 2 by 2 grid with no equal neighbours in any
direction is signalled as game over by a left slide. -/
theorem slide_gameover_characterization_witness :
    (Grid.from_rows [[1, 3], [3, 1]]).slide .LEFT [] = .error "no more options" :=
  (slide_gameover_characterization (Grid.from_rows [[1, 3], [3, 1]]) 2 .LEFT []
    (by decide) (by decide) (by decide)).1.mpr ⟨by decide, by decide⟩

/-- Counterexample to C1 as stated: the grid `[[1,2],[1,3]]` is full and
its first column holds two adjacent equal exponents, so an Up slide would
change the board — yet `slide(Left)` already returns the game-over signal,
because the left collapse changes nothing and the grid is full.  So
"game over iff no empty cell and no adjacent pair in any of the four
directions" fails in the only-if direction. -/
theorem slide_gameover_only_requested_direction_cex :
    (Grid.from_rows [[1, 2], [1, 3]]).slide .LEFT [] = .error "no more options"
    ∧ ¬(gridFull [[1, 2], [1, 3]]
        ∧ slidePre .LEFT [[1, 2], [1, 3]] = [[1, 2], [1, 3]]
        ∧ slidePre .RIGHT [[1, 2], [1, 3]] = [[1, 2], [1, 3]]
        ∧ slidePre .UP [[1, 2], [1, 3]] = [[1, 2], [1, 3]]
        ∧ slidePre .DOWN [[1, 2], [1, 3]] = [[1, 2], [1, 3]]) :=
  ⟨rfl, by decide⟩

/-- C4: on a non-empty rectangular grid, if the collapse in the requested
direction changes the cell array, `slide` returns a grid with exactly one
more occupied cell than the pre-spawn collapsed result (the collapsed
result of a changing slide always has an empty cell, so the spawn cannot
fail). -/
theorem slide_changed_spawns (g : Grid) (w : Nat) (dir : Direction) (s : List Nat)
    (hne : g.rows ≠ []) (hw : 0 < w) (hrect : IsRect g.rows w)
    (hch : slidePre dir g.rows ≠ g.rows) :
    ∃ g', g.slide dir s = .ok g' ∧
      countNonzero g'.rows = countNonzero (slidePre dir g.rows) + 1 := by
  have hz : zerosList (slidePre dir g.rows) ≠ [] := by
    intro hc
    exact hch (slidePre_eq_of_no_zero dir g.rows w hne hw hrect ((zerosList_eq_nil_iff _).mp hc))
  obtain ⟨g', heq, hcount, _⟩ :=
    add_random_number_ok_spec { rows := slidePre dir g.rows, pipes := defaultGrid.pipes } s hz
  refine ⟨g', ?_, hcount⟩
  rw [slide_def_eq, heq]
  show (if slidePre dir g.rows ≠ g.rows then Except.ok g'
      else Except.ok { rows := slidePre dir g.rows, pipes := defaultGrid.pipes }) = Except.ok g'
  rw [if_pos hch]

/-- Witness for C4: the left slide of `[[1,1],[2,3]]` merges the two 1-tiles
and the returned grid holds one more tile than the collapsed array. -/
theorem slide_changed_spawns_witness :
    ∃ g', (Grid.from_rows [[1, 1], [2, 3]]).slide .LEFT [] = .ok g' ∧
      countNonzero g'.rows = countNonzero (slidePre .LEFT [[1, 1], [2, 3]]) + 1 :=
  slide_changed_spawns (Grid.from_rows [[1, 1], [2, 3]]) 2 .LEFT []
    (by decide) (by decide) (by decide) (by decide)

/-- Counterexample to C5 as stated: the left collapse leaves the full grid
`[[1,2],[2,1]]` unchanged, yet `slide` does not return a grid identical to
the input — it returns the game-over signal, because the unconditional
spawn attempt fails on the full board before the changed/unchanged test. -/
theorem slide_unchanged_full_cex :
    slidePre .LEFT [[1, 2], [2, 1]] = [[1, 2], [2, 1]]
    ∧ (Grid.from_rows [[1, 2], [2, 1]]).slide .LEFT [] = .error "no more options" :=
  ⟨by decide, rfl⟩

/-- C5 (corrected): if the collapse in the requested direction leaves the
cell array unchanged AND the grid has at least one empty cell, `slide`
returns a grid whose cell array is identical to the input's, with no tile
spawned into it. -/
theorem slide_unchanged_identity (g : Grid) (dir : Direction) (s : List Nat)
    (hunch : slidePre dir g.rows = g.rows) (hnf : ¬ gridFull g.rows) :
    g.slide dir s = .ok { rows := g.rows, pipes := PIPEMAP_THICK } := by
  have hz : zerosList (slidePre dir g.rows) ≠ [] := by
    rw [hunch, Ne, zerosList_eq_nil_iff]
    exact fun hc => hnf hc
  obtain ⟨g', heq, _⟩ :=
    add_random_number_ok_spec { rows := slidePre dir g.rows, pipes := defaultGrid.pipes } s hz
  rw [slide_def_eq, heq]
  show (if slidePre dir g.rows ≠ g.rows then Except.ok g'
      else Except.ok { rows := slidePre dir g.rows, pipes := defaultGrid.pipes }) = _
  rw [if_neg (fun hc => hc hunch), hunch]
  rfl

/-- Witness for C5: a left slide of `[[1,2],[0,0]]` moves nothing and comes
back exactly as the input cell array, with no spawned tile. -/
theorem slide_unchanged_identity_witness :
    (Grid.from_rows [[1, 2], [0, 0]]).slide .LEFT [5, 7] =
      .ok { rows := [[1, 2], [0, 0]], pipes := PIPEMAP_THICK } :=
  slide_unchanged_identity (Grid.from_rows [[1, 2], [0, 0]]) .LEFT [5, 7]
    (by decide) (by decide)

/-- C6: construction succeeds exactly for width ≥ 1, height ≥ 1, not both
below 2 (otherwise the source panics), and a successfully constructed grid
is width by height with exactly two occupied cells, each holding exponent
1 or 2 (every cell is 0, 1 or 2 and exactly two are non-zero). -/
theorem new_spec (x y : Nat) (s : List Nat) :
    ((Grid.new x y s).isSome = true ↔ (1 ≤ x ∧ 1 ≤ y ∧ (2 ≤ x ∨ 2 ≤ y)))
    ∧ (∀ g, Grid.new x y s = some g →
        g.rows.length = y ∧ IsRect g.rows x ∧ countNonzero g.rows = 2 ∧
        (∀ r ∈ g.rows, ∀ c ∈ r, c = 0 ∨ c = 1 ∨ c = 2)) := by
  by_cases hv : x < 1 ∨ y < 1 ∨ (x < 2 ∧ y < 2)
  · have hnone : Grid.new x y s = none := by
      unfold Grid.new
      rw [if_pos hv]
    constructor
    · rw [hnone]
      simp only [Option.isSome_none, Bool.false_eq_true, false_iff]
      omega
    · intro g hg
      rw [hnone] at hg
      exact Option.noConfusion hg
  · have hx : 1 ≤ x := by omega
    have hy : 1 ≤ y := by omega
    have hxy : 2 ≤ x ∨ 2 ≤ y := by omega
    have hcountrow : countNZ (List.replicate x 0) = 0 := by
      simp [countNZ, List.filter_replicate]
    have hZcount : countNonzero (List.replicate y (List.replicate x 0)) = 0 := by
      unfold countNonzero
      rw [List.map_replicate, hcountrow, List.sum_replicate]
      simp
    have hZtotal : totalCells (List.replicate y (List.replicate x 0)) = y * x := by
      unfold totalCells
      rw [List.map_replicate, List.length_replicate, List.sum_replicate, smul_eq_mul]
    have hZrect : IsRect (List.replicate y (List.replicate x 0)) x := by
      intro r hr
      rw [List.eq_of_mem_replicate hr]
      simp
    have hxy2 : 2 ≤ y * x := by
      rcases hxy with h2 | h2
      · calc 2 = 1 * 2 := by omega
          _ ≤ y * x := Nat.mul_le_mul hy h2
      · calc 2 = 2 * 1 := by omega
          _ ≤ y * x := Nat.mul_le_mul h2 hx
    have hz1 : zerosList (List.replicate y (List.replicate x 0)) ≠ [] := by
      apply zerosList_ne_nil_of_count_lt
      rw [hZcount, hZtotal]
      omega
    obtain ⟨g1, heq1, hc1, hl1, hr1, ht1, hm1, _⟩ := add_random_number_ok_spec
      { rows := List.replicate y (List.replicate x 0), pipes := defaultGrid.pipes } s hz1
    have hz2 : zerosList g1.rows ≠ [] := by
      apply zerosList_ne_nil_of_count_lt
      rw [hc1]
      show countNonzero (List.replicate y (List.replicate x 0)) + 1 < totalCells g1.rows
      rw [ht1]
      show _ < totalCells (List.replicate y (List.replicate x 0))
      rw [hZcount, hZtotal]
      omega
    obtain ⟨g2, heq2, hc2, hl2, hr2, ht2, hm2, _⟩ := add_random_number_ok_spec g1 (s.drop 2) hz2
    have hnew : Grid.new x y s = some g2 := by
      unfold Grid.new
      rw [if_neg hv]
      show (match Grid.add_random_number
          { rows := List.replicate y (List.replicate x 0), pipes := defaultGrid.pipes } s with
        | .error _ => none
        | .ok g1 =>
          match g1.add_random_number (s.drop 2) with
          | .error _ => none
          | .ok g2 => some g2) = some g2
      rw [heq1]
      show (match g1.add_random_number (s.drop 2) with
        | .error _ => none
        | .ok g2 => some g2) = some g2
      rw [heq2]
    constructor
    · rw [hnew]
      simp only [Option.isSome_some, true_iff]
      exact ⟨hx, hy, hxy⟩
    · intro g hg
      rw [hnew] at hg
      have hg2 : g2 = g := Option.some.inj hg
      subst hg2
      refine ⟨?_, ?_, ?_, ?_⟩
      · rw [hl2, hl1]
        simp
      · exact hr2 x (hr1 x hZrect)
      · rw [hc2, hc1, hZcount]
      · intro r hr c hc
        have hcf : c ∈ g2.rows.flatten := List.mem_flatten.mpr ⟨r, hr, hc⟩
        rcases hm2 c hcf with h | h
        · rcases hm1 c h with h' | h'
          · left
            obtain ⟨r', hr', hcr'⟩ := List.mem_flatten.mp h'
            have hre : r' = List.replicate x 0 := List.eq_of_mem_replicate hr'
            subst hre
            exact List.eq_of_mem_replicate hcr'
          · rcases spawnPower_one_or_two (s.drop 1) with hp | hp
            · right; left; rw [h', hp]
            · right; right; rw [h', hp]
        · rcases spawnPower_one_or_two ((s.drop 2).drop 1) with hp | hp
          · right; left; rw [h, hp]
          · right; right; rw [h, hp]

/-- Witness for C6: `new 2 2` with a concrete random stream succeeds and its
result `[[1,1],[0,0]]` is 2 by 2 with exactly two occupied cells. -/
theorem new_spec_witness :
    (Grid.new 2 2 [0, 0, 0, 0]).isSome = true
    ∧ countNonzero [[1, 1], [0, 0]] = 2 ∧ IsRect [[1, 1], [0, 0]] 2 := by
  refine ⟨(new_spec 2 2 [0, 0, 0, 0]).1.mpr (by omega), ?_, ?_⟩
  · exact ((new_spec 2 2 [0, 0, 0, 0]).2
      { rows := [[1, 1], [0, 0]], pipes := PIPEMAP_THICK } rfl).2.2.1
  · exact ((new_spec 2 2 [0, 0, 0, 0]).2
      { rows := [[1, 1], [0, 0]], pipes := PIPEMAP_THICK } rfl).2.1
